import Mathlib

/-!
# Verification of `src/js/github.js` (METTLESTATE GitHub sync layer)

Shallow embedding of the GitHub sync module. The browser environment is made
explicit:

* `localStorage['eafc_gh_config']` becomes an `Option StoredString` value,
  where `StoredString` abstracts the serialized JSON text: `JSON.stringify`
  of a config object, the literal `"null"`, or a string that is not valid
  JSON (on which `JSON.parse` throws).
* `fetch` becomes a function `Store : Request → FetchOutcome` supplied by the
  environment; `FetchOutcome.throws` models a rejected fetch promise
  (transport-level error), `FetchOutcome.response r` a resolved response.
  `res.json()` is modelled by the `Except Unit RespJson` field of a response
  (`Except.error` when the body is not valid JSON and `res.json()` rejects).
* The DOM status bar (`showSyncBar` / `hideSyncBar`) becomes a list of
  `StatusEvent`s returned alongside each operation's result.
* JavaScript exceptions escaping a function are modelled by an
  `Except Unit _` result type; functions whose body is fully guarded by
  `try/catch` get a plain (non-`Except`) result type.
* The transport text encoding `btoa(unescape(encodeURIComponent(s)))` and its
  inverse `decodeURIComponent(escape(atob(x)))` are modelled concretely as
  base64 over the UTF-8 bytes of `s` (that is exactly what the composite of
  those JavaScript primitives computes on well-formed Unicode strings).
-/

/-- JavaScript `String.prototype.trim()`: strips leading and trailing
    whitespace. Modelled executably over the character list (whitespace per
    `Char.isWhitespace`, which covers the space/tab/CR/LF characters relevant
    here). -/
def jsTrim (s : String) : String :=
  String.mk (((s.data.dropWhile Char.isWhitespace).reverse.dropWhile
    Char.isWhitespace).reverse)

/-- The connection config object `{owner, repo, branch, token}`
    (`GH.config` when non-null). -/
structure Config where
  owner : String
  repo : String
  branch : String
  token : String
deriving DecidableEq, Repr

/-- Abstraction of the raw string stored in
    `localStorage['eafc_gh_config']`: the `JSON.stringify` image of a config
    object, the JSON literal `null`, or text that is not valid JSON. -/
inductive StoredString where
  | ofConfig (c : Config)
  | nullJson
  | invalid
deriving DecidableEq, Repr

/-- `JSON.parse` on a stored string: yields the config object, `null`, or
    throws a `SyntaxError` (modelled as `Except.error ()`). -/
def jsonParseStored : StoredString → Except Unit (Option Config)
  | StoredString.ofConfig c => Except.ok (some c)
  | StoredString.nullJson => Except.ok none
  | StoredString.invalid => Except.error ()

/-- `GH.load()`. Reads `localStorage.getItem('eafc_gh_config')`
    (the `Option StoredString` argument), sets `this.config` to
    `raw ? JSON.parse(raw) : null` and returns `!!this.config`.
    There is no `try/catch` in the source, so a `JSON.parse` exception
    propagates: the result type is `Except`. The returned pair is
    (`this.config` after the call, returned boolean). -/
def load (stored : Option StoredString) : Except Unit (Option Config × Bool) :=
  match stored with
  | none => Except.ok (none, false)
  | some raw =>
    match jsonParseStored raw with
    | Except.error e => Except.error e
    | Except.ok cfg => Except.ok (cfg, cfg.isSome)

/-- `GH.save(owner, repo, branch, token)`: builds the trimmed config
    (`branch.trim() || 'main'`), stores its JSON serialization. Returns
    (`this.config`, the string written to `localStorage`). -/
def save (owner repo branch token : String) : Config × StoredString :=
  let c : Config :=
    { owner := jsTrim owner
      repo := jsTrim repo
      branch := if (jsTrim branch).isEmpty then "main" else jsTrim branch
      token := jsTrim token }
  (c, StoredString.ofConfig c)

/-- `GH.disconnect()`: sets `this.config = null` and removes the stored
    entry. Returns (`this.config`, the storage cell after removal). -/
def disconnect : Option Config × Option StoredString := (none, none)

/-- JavaScript truthiness of `this.config?.owner && this.config?.repo &&
    this.config?.token` for a non-null config: all three strings non-empty.
    Note the source tests the raw field values; it does not trim them. -/
def configTruthy (c : Config) : Bool :=
  !c.owner.isEmpty && !c.repo.isEmpty && !c.token.isEmpty

/-- `GH.isConnected()`: `!!(this.config?.owner && this.config?.repo &&
    this.config?.token)`; optional chaining on a null config yields
    `undefined`, hence `false`. -/
def isConnected : Option Config → Bool
  | none => false
  | some c => configTruthy c

/-! ## Transport text encoding

`commitFile` sends text content as `btoa(unescape(encodeURIComponent(content)))`
and `loadRemoteData` decodes with `decodeURIComponent(escape(atob(...)))`.
On a well-formed Unicode string, `unescape(encodeURIComponent(s))` is the
string whose code points are exactly the UTF-8 bytes of `s`, and `btoa`
base64-encodes those byte values; conversely `escape` turns each byte back
into a `%XX` escape and `decodeURIComponent` performs a validating UTF-8
decode (rejecting overlong forms and surrogate code points, as the browser
primitive does). We therefore model the composite directly: base64 over
UTF-8 bytes, and the validating inverse. -/

/-- The base64 alphabet used by `btoa`/`atob`. -/
def b64chars : List Char :=
  "ABCDEFGHIJKLMNOPQRSTUVWXYZabcdefghijklmnopqrstuvwxyz0123456789+/".data

/-- Character for a 6-bit group. -/
def b64char (i : Nat) : Char := b64chars.getD i '?'

/-- Scan for the index of a character in the alphabet. -/
def b64idxAux : List Char → Nat → Char → Option Nat
  | [], _, _ => none
  | a :: rest, i, c => if a = c then some i else b64idxAux rest (i + 1) c

/-- Index of a character in the base64 alphabet (`none` for characters
    outside it, on which `atob` throws). -/
def b64idx (c : Char) : Option Nat := b64idxAux b64chars 0 c

/-- `btoa` on a byte list: 3 bytes become 4 alphabet characters, a final
    group of 1 or 2 bytes is padded with `=`. -/
def b64encodeList : List Nat → List Char
  | [] => []
  | [a] => [b64char (a / 4), b64char (a % 4 * 16), '=', '=']
  | [a, b] => [b64char (a / 4), b64char (a % 4 * 16 + b / 16), b64char (b % 16 * 4), '=']
  | a :: b :: c :: rest =>
    b64char (a / 4) :: b64char (a % 4 * 16 + b / 16) :: b64char (b % 16 * 4 + c / 64) ::
      b64char (c % 64) :: b64encodeList rest

/-- `atob` on a character list: `none` models the `InvalidCharacterError`
    thrown on input whose length is not a multiple of 4, with a character
    outside the alphabet, or with misplaced padding. -/
def b64decodeList : List Char → Option (List Nat)
  | [] => some []
  | c0 :: c1 :: c2 :: c3 :: rest =>
    (b64idx c0).bind fun x0 =>
    (b64idx c1).bind fun x1 =>
    if c2 = '=' then
      if c3 = '=' ∧ rest = [] then some [x0 * 4 + x1 / 16] else none
    else
      (b64idx c2).bind fun x2 =>
      if c3 = '=' then
        if rest = [] then some [x0 * 4 + x1 / 16, x1 % 16 * 16 + x2 / 4] else none
      else
        (b64idx c3).bind fun x3 =>
        (b64decodeList rest).map fun bs =>
          (x0 * 4 + x1 / 16) :: (x1 % 16 * 16 + x2 / 4) :: (x2 % 4 * 64 + x3) :: bs
  | _ => none

/-- UTF-8 encoding of a single Unicode code point (1–4 bytes). -/
def utf8EncodeCp (n : Nat) : List Nat :=
  if n < 0x80 then [n]
  else if n < 0x800 then [0xC0 + n / 64, 0x80 + n % 64]
  else if n < 0x10000 then [0xE0 + n / 4096, 0x80 + n / 64 % 64, 0x80 + n % 64]
  else [0xF0 + n / 262144, 0x80 + n / 4096 % 64, 0x80 + n / 64 % 64, 0x80 + n % 64]

/-- The UTF-8 bytes of a string (what `unescape(encodeURIComponent(s))`
    exposes, one byte per character). -/
def strToUtf8 (s : String) : List Nat :=
  (s.data.map fun c => utf8EncodeCp c.toNat).flatten

/-- One step of a validating UTF-8 decode, as a byte-at-a-time state
    machine. The state is `none` between sequences, or
    `some (acc, k, lo)` inside a multi-byte sequence: `acc` the code point
    accumulated so far, `k` the number of continuation bytes still
    expected, `lo` the least code point a sequence of that length may
    encode (for rejecting overlong forms). Truncated or malformed
    sequences, stray continuation bytes, surrogate code points and values
    above `0x10FFFF` all fail — the failures on which `decodeURIComponent`
    throws `URIError`. -/
def utf8DecodeSt : Option (Nat × Nat × Nat) → List Nat → Option (List Nat)
  | none, [] => some []
  | some _, [] => none
  | none, b :: rest =>
    if b < 0x80 then (utf8DecodeSt none rest).map fun l => b :: l
    else if b < 0xC0 then none
    else if b < 0xE0 then utf8DecodeSt (some (b - 0xC0, 1, 0x80)) rest
    else if b < 0xF0 then utf8DecodeSt (some (b - 0xE0, 2, 0x800)) rest
    else if b < 0xF8 then utf8DecodeSt (some (b - 0xF0, 3, 0x10000)) rest
    else none
  | some (acc, k, lo), b :: rest =>
    if 0x80 ≤ b ∧ b < 0xC0 then
      if k = 1 then
        if lo ≤ acc * 64 + (b - 0x80) ∧ acc * 64 + (b - 0x80) < 0x110000 ∧
            (acc * 64 + (b - 0x80) < 0xD800 ∨ 0xDFFF < acc * 64 + (b - 0x80)) then
          (utf8DecodeSt none rest).map fun l => (acc * 64 + (b - 0x80)) :: l
        else none
      else utf8DecodeSt (some (acc * 64 + (b - 0x80), k - 1, lo)) rest
    else none
termination_by structural _ l => l

/-- Validating UTF-8 decode of a byte list to code points. -/
def utf8Decode (l : List Nat) : Option (List Nat) := utf8DecodeSt none l

/-- `btoa(unescape(encodeURIComponent(s)))`: the store transport encoding of
    a text payload. -/
def jsEncode (s : String) : String :=
  String.mk (b64encodeList (strToUtf8 s))

/-- `decodeURIComponent(escape(atob(x)))`: the transport decoding;
    `none` models a thrown `InvalidCharacterError`/`URIError`. -/
def jsDecode (x : String) : Option String :=
  match b64decodeList x.data with
  | none => none
  | some bs =>
    match utf8Decode bs with
    | none => none
    | some cps => some (String.mk (cps.map Char.ofNat))

/-- `content.replace(/\n/g, '')` in `loadRemoteData`. -/
def stripNewlines (s : String) : String :=
  String.mk (s.data.filter fun c => c ≠ '\n')

/-! ## Remote store (fetch) model -/

/-- The JSON body of a `PUT /contents` request built by `commitFile`:
    `{message, branch, content, sha?}`; `sha := none` means the field was
    omitted (`if (sha) body.sha = sha`). -/
structure PutBody where
  message : String
  branch : String
  content : String
  sha : Option String
deriving DecidableEq, Repr

/-- The requests `github.js` issues, by URL shape:
    `GET {apiBase}/contents/{path}?ref={branch}`,
    `PUT {apiBase}/contents/{path}`, and `GET {apiBase}` itself. -/
inductive Request where
  | getContents (owner repo path ref : String)
  | putContents (owner repo path : String) (body : PutBody)
  | getRepo (owner repo : String)
deriving DecidableEq, Repr

/-- Fields of a parsed JSON response body that the module reads
    (`data.sha`, `file.content`); a field is `none` when absent. -/
structure RespJson where
  sha : Option String := none
  content : Option String := none
deriving DecidableEq, Repr

/-- A resolved `fetch` response: HTTP status plus the result of
    `await res.json()` (`Except.error` when the body fails to parse and
    `res.json()` rejects). -/
structure Response where
  status : Nat
  jsonResult : Except Unit RespJson

/-- Outcome of one `fetch` call: a rejected promise (transport-level error,
    observed as a thrown exception at `await`) or a resolved response. -/
inductive FetchOutcome where
  | throws
  | response (r : Response)

/-- The remote store's behaviour: what `fetch` does on each request. -/
def Store : Type := Request → FetchOutcome

/-- `res.ok`: status in the inclusive range 200–299. -/
def resOk (status : Nat) : Bool := 200 ≤ status && status < 300

/-- `x || null` on a string-or-absent JavaScript value: the empty string is
    falsy and collapses to `null`. -/
def jsOrNull : Option String → Option String
  | some s => if s.isEmpty then none else some s
  | none => none

/-- Truthiness of a string-or-null value (`if (sha) ...`). -/
def jsTruthy : Option String → Bool
  | some s => !s.isEmpty
  | none => false

/-- The `try` body of `GH.getFileSHA(path)`: fetch
    `GET {apiBase}/contents/{path}?ref={branch}`; 404 → `null`; other
    non-ok status → `null`; otherwise `data.sha || null`. A rejected fetch
    or `res.json()` is `Except.error`dl, handled by the surrounding `catch`.
    Second component: the requests issued. -/
def getFileSHATry (c : Config) (store : Store) (path : String) :
    Except Unit (Option String) × List Request :=
  let req := Request.getContents c.owner c.repo path c.branch
  match store req with
  | FetchOutcome.throws => (Except.error (), [req])
  | FetchOutcome.response r =>
    if r.status = 404 then (Except.ok none, [req])
    else if !resOk r.status then (Except.ok none, [req])
    else
      match r.jsonResult with
      | Except.error e => (Except.error e, [req])
      | Except.ok data => (Except.ok (jsOrNull data.sha), [req])

/-- `GH.getFileSHA(path)`: the `try` body with `catch { return null }`.
    Total — every failure becomes `none`. -/
def getFileSHA (c : Config) (store : Store) (path : String) :
    Option String × List Request :=
  match getFileSHATry c store path with
  | (Except.ok v, reqs) => (v, reqs)
  | (Except.error _, reqs) => (none, reqs)

/-- `GH.commitFile(path, content, commitMsg, isBinary)`. Returns `false`
    immediately when not connected. Otherwise reads the current sha, builds
    the body (`content` base64-transcoded unless `isBinary`; `sha` included
    only when truthy) and issues the `PUT`. The source has **no**
    `try/catch` here: a rejected `PUT` fetch propagates (`Except.error`).
    Second component: the requests issued, in order. -/
def commitFile (cfg : Option Config) (store : Store)
    (path content commitMsg : String) (isBinary : Bool) :
    Except Unit Bool × List Request :=
  match cfg with
  | none => (Except.ok false, [])
  | some c =>
    if !configTruthy c then (Except.ok false, [])
    else
      let rd := getFileSHA c store path
      let body : PutBody :=
        { message := commitMsg
          branch := c.branch
          content := if isBinary then content else jsEncode content
          sha := if jsTruthy rd.1 then rd.1 else none }
      let req := Request.putContents c.owner c.repo path body
      match store req with
      | FetchOutcome.throws => (Except.error (), rd.2 ++ [req])
      | FetchOutcome.response r => (Except.ok (resOk r.status), rd.2 ++ [req])

/-- The two status-bar outcomes of `hideSyncBar`. -/
inductive SyncFlag where
  | ok
  | error
deriving DecidableEq, Repr

/-- Status-UI notifications emitted during an operation
    (`showSyncBar(msg)` / `hideSyncBar(status, msg)`). -/
inductive StatusEvent where
  | showSyncBar (msg : String)
  | hideSyncBar (flag : SyncFlag) (msg : String)
deriving DecidableEq, Repr

/-- `GH.uploadMatchImage(base64Data, filename)`: commits the already-encoded
    payload under `match-images/{filename}` and on success returns the raw
    GitHub URL; `null` on a rejected write; the surrounding `try/catch`
    turns a thrown error (a rejected `PUT` inside `commitFile`) into `null`
    as well. Second component: the status events emitted. -/
def uploadMatchImage (cfg : Option Config) (store : Store)
    (base64Data filename : String) : Option String × List StatusEvent :=
  match cfg with
  | none => (none, [])
  | some c =>
    if !configTruthy c then (none, [])
    else
      let shown := [StatusEvent.showSyncBar "Uploading match screenshot…"]
      let path := "match-images/" ++ filename
      match (commitFile (some c) store path base64Data
          ("📸 Match screenshot: " ++ filename) true).1 with
      | Except.ok true =>
        (some ("https://raw.githubusercontent.com/" ++ c.owner ++ "/" ++ c.repo ++
            "/" ++ c.branch ++ "/" ++ path),
         shown ++ [StatusEvent.hideSyncBar SyncFlag.ok "Screenshot saved to GitHub"])
      | Except.ok false =>
        (none, shown ++ [StatusEvent.hideSyncBar SyncFlag.error "Image upload failed"])
      | Except.error _ =>
        (none, shown ++ [StatusEvent.hideSyncBar SyncFlag.error "Image upload failed"])

/-- `GH.loadRemoteData()`, polymorphic in the parsed league-data payload:
    `jparse` is the environment's `JSON.parse` on the decoded text
    (`Except.error` when it throws). Fully guarded by `try/catch`, so the
    result is total: `none` plus an error event on any failure, and a
    not-ok response (404 included) is reported as a *success* with
    "No remote data yet — starting fresh". -/
def loadRemoteData {α : Type} (cfg : Option Config) (store : Store)
    (jparse : String → Except Unit α) : Option α × List StatusEvent :=
  match cfg with
  | none => (none, [])
  | some c =>
    if !configTruthy c then (none, [])
    else
      let shown := [StatusEvent.showSyncBar "Loading data from GitHub…"]
      let failed := (none,
        shown ++ [StatusEvent.hideSyncBar SyncFlag.error "Could not load remote data"])
      match store (Request.getContents c.owner c.repo "data/league-data.json" c.branch) with
      | FetchOutcome.throws => failed
      | FetchOutcome.response r =>
        if !resOk r.status then
          (none, shown ++
            [StatusEvent.hideSyncBar SyncFlag.ok "No remote data yet — starting fresh"])
        else
          match r.jsonResult with
          | Except.error _ => failed
          | Except.ok file =>
            match file.content with
            | none => failed
            | some content =>
              match jsDecode (stripNewlines content) with
              | none => failed
              | some decoded =>
                match jparse decoded with
                | Except.error _ => failed
                | Except.ok data =>
                  (some data,
                   shown ++ [StatusEvent.hideSyncBar SyncFlag.ok "Data loaded from GitHub"])

/-- The `{ok, msg}` result of `GH.testConnection()`. -/
structure TestResult where
  ok : Bool
  msg : String
deriving DecidableEq, Repr

/-- `GH.testConnection()`: reads `GET {apiBase}` and classifies the status;
    the `try/catch` converts a rejected fetch into the "Network error"
    result. Purely diagnostic: it takes the config as a read-only input and
    returns only the classification — it neither receives nor produces a
    storage state or config update. -/
def testConnection (cfg : Option Config) (store : Store) : TestResult :=
  match cfg with
  | none => { ok := false, msg := "Not configured" }
  | some c =>
    if !configTruthy c then { ok := false, msg := "Not configured" }
    else
      match store (Request.getRepo c.owner c.repo) with
      | FetchOutcome.throws => { ok := false, msg := "Network error" }
      | FetchOutcome.response r =>
        if r.status = 200 then { ok := true, msg := "Connected!" }
        else if r.status = 401 then { ok := false, msg := "Invalid token" }
        else if r.status = 404 then { ok := false, msg := "Repo not found" }
        else { ok := false, msg := "Error " ++ toString r.status }

/-! ## Concrete environments used by witnesses and counterexamples -/

/-- A store on which every `fetch` call rejects (network down). -/
def storeAllThrow : Store := fun _ => FetchOutcome.throws

/-- A store that answers every request with an empty-bodied 200. -/
def store200 : Store := fun _ =>
  FetchOutcome.response { status := 200, jsonResult := Except.ok {} }

/-- A store that answers every request with 404. -/
def store404 : Store := fun _ =>
  FetchOutcome.response { status := 404, jsonResult := Except.ok {} }

/-- A store whose reads find a file with sha `"abc"` and whose writes
    succeed. -/
def storeShaAbc : Store := fun _ =>
  FetchOutcome.response { status := 200, jsonResult := Except.ok { sha := some "abc" } }

/-- A sample connected config. -/
def cfgSample : Config := { owner := "a", repo := "b", branch := "main", token := "t" }

/-- A store that throws only on `PUT` requests (transport failure during the
    write): reads resolve with 200 and no sha. -/
def storePutThrow : Store := fun req =>
  match req with
  | Request.putContents _ _ _ _ => FetchOutcome.throws
  | _ => FetchOutcome.response { status := 200, jsonResult := Except.ok {} }

/-- C2 (counterexample): the claim says `load()` never throws, treating
    malformed stored data as "no config". But `GH.load` has no `try/catch`:
    on stored text that is not valid JSON, `JSON.parse` throws and the
    exception propagates out of `load`. -/
theorem load_malformed_throws :
    load (some StoredString.invalid) = Except.error () := rfl

/-- C2 (amended): `load()` returns normally on absent stored data and on any
    well-formed stored value — absent data and a stored JSON `null` are
    treated as "no config" (result `false`), a stored config object is
    restored (result `true`) — but on malformed stored data (not valid JSON)
    the `JSON.parse` exception propagates to the caller. -/
theorem load_spec :
    load none = Except.ok (none, false) ∧
    (∀ c : Config, load (some (StoredString.ofConfig c)) = Except.ok (some c, true)) ∧
    load (some StoredString.nullJson) = Except.ok (none, false) ∧
    load (some StoredString.invalid) = Except.error () :=
  ⟨rfl, fun _ => rfl, rfl, rfl⟩

/-- C5 (counterexample): a config whose owner is the whitespace-only string
    `" "` — empty after trimming — is nevertheless `isConnected`, because the
    source tests truthiness of the raw strings and never trims them. The
    claim, as stated, requires `isConnected` to be `false` here. -/
theorem isConnected_whitespace_counterexample :
    isConnected (some { owner := " ", repo := "r", branch := "main", token := "t" }) = true
    ∧ jsTrim " " = "" := by
  constructor
  · rfl
  · rfl

/-- C5 (amended): `isConnected()` is `true` iff owner, repo and token are all
    non-empty strings as stored (no trimming is applied by the check itself);
    a null config is never connected. Since `save` trims every field before
    storing, for configs produced by `save` this coincides with "non-empty
    after trimming". -/
theorem isConnected_iff :
    (∀ c : Config, isConnected (some c) = true ↔
      (c.owner ≠ "" ∧ c.repo ≠ "" ∧ c.token ≠ "")) ∧
    isConnected none = false := by
  refine ⟨fun c => ?_, rfl⟩
  simp only [isConnected, configTruthy, Bool.and_eq_true, Bool.not_eq_true',
    and_assoc]
  simp [Bool.eq_false_iff, Ne, String.isEmpty_iff]

/-- C8: `save` then `load` yields exactly the config with all four fields
    trimmed and branch defaulted to `"main"` when its trimmed value is
    empty; `disconnect` then `load` yields no config (`load` returns
    `false`). -/
theorem save_load_roundtrip :
    (∀ owner repo branch token : String,
      load (some (save owner repo branch token).2) =
        Except.ok (some
          { owner := jsTrim owner
            repo := jsTrim repo
            branch := if (jsTrim branch).isEmpty then "main" else jsTrim branch
            token := jsTrim token }, true)) ∧
    load disconnect.2 = Except.ok (none, false) :=
  ⟨fun _ _ _ _ => rfl, rfl⟩

/-! ## Base64 and UTF-8 round-trip lemmas (for the transport encoding) -/

/-- Looking up the character of any 6-bit group recovers the group. -/
theorem b64idx_b64char : ∀ i, i < 64 → b64idx (b64char i) = some i := by decide

/-- No alphabet character is the padding character. -/
theorem b64char_ne_pad : ∀ i, i < 64 → b64char i ≠ '=' := by decide

/-- `atob` inverts `btoa` on any byte list. -/
theorem b64_roundtrip : ∀ bs : List Nat, (∀ x ∈ bs, x < 256) →
    b64decodeList (b64encodeList bs) = some bs
  | [], _ => rfl
  | [a], h => by
    have ha : a < 256 := h a (by simp)
    simp only [b64encodeList, b64decodeList]
    rw [b64idx_b64char _ (by omega), Option.some_bind,
      b64idx_b64char _ (by omega), Option.some_bind]
    simp
    omega
  | [a, b], h => by
    have ha : a < 256 := h a (by simp)
    have hb : b < 256 := h b (by simp)
    simp only [b64encodeList, b64decodeList]
    rw [b64idx_b64char _ (by omega), Option.some_bind,
      b64idx_b64char _ (by omega), Option.some_bind,
      if_neg (b64char_ne_pad _ (by omega)),
      b64idx_b64char _ (by omega), Option.some_bind]
    simp
    constructor
    · omega
    · omega
  | a :: b :: c :: rest, h => by
    have ha : a < 256 := h a (by simp)
    have hb : b < 256 := h b (by simp)
    have hc : c < 256 := h c (by simp)
    have ih := b64_roundtrip rest (fun x hx => h x (by simp [hx]))
    simp only [b64encodeList, b64decodeList]
    rw [b64idx_b64char _ (by omega), Option.some_bind,
      b64idx_b64char _ (by omega), Option.some_bind,
      if_neg (b64char_ne_pad _ (by omega)),
      b64idx_b64char _ (by omega), Option.some_bind,
      if_neg (b64char_ne_pad _ (by omega)),
      b64idx_b64char _ (by omega), Option.some_bind,
      ih, Option.map_some']
    have e1 : a / 4 * 4 + (a % 4 * 16 + b / 16) / 16 = a := by omega
    have e2 : (a % 4 * 16 + b / 16) % 16 * 16 + (b % 16 * 4 + c / 64) / 4 = b := by omega
    have e3 : (b % 16 * 4 + c / 64) % 4 * 64 + c % 64 = c := by omega
    rw [e1, e2, e3]

/-- Every byte produced by the UTF-8 encoder is a byte. -/
theorem utf8EncodeCp_lt_256 (n : Nat) (hn : n < 0x110000) :
    ∀ x ∈ utf8EncodeCp n, x < 256 := by
  intro x hx
  unfold utf8EncodeCp at hx
  split at hx
  · simp at hx; omega
  · split at hx
    · simp at hx; rcases hx with hx | hx <;> omega
    · split at hx
      · simp at hx; rcases hx with hx | hx | hx <;> omega
      · simp at hx; rcases hx with hx | hx | hx | hx <;> omega

/-- Decoding consumes exactly the encoding of a valid code point and yields
    it back. -/
theorem utf8Decode_encode_cons (n : Nat) (hv : Nat.isValidChar n) (rest : List Nat) :
    utf8Decode (utf8EncodeCp n ++ rest) = (utf8Decode rest).map fun l => n :: l := by
  have hn : n < 0x110000 := by
    rcases hv with h | ⟨_, h⟩ <;> omega
  unfold utf8Decode
  by_cases h1 : n < 0x80
  · have e : utf8EncodeCp n = [n] := by
      unfold utf8EncodeCp; rw [if_pos h1]
    rw [e, List.cons_append, List.nil_append, utf8DecodeSt, if_pos h1]
  · by_cases h2 : n < 0x800
    · have e : utf8EncodeCp n = [0xC0 + n / 64, 0x80 + n % 64] := by
        unfold utf8EncodeCp; rw [if_neg h1, if_pos h2]
      rw [e, List.cons_append, List.cons_append, List.nil_append]
      rw [utf8DecodeSt, if_neg (by omega), if_neg (by omega), if_pos (by omega)]
      rw [utf8DecodeSt, if_pos (by omega), if_pos rfl, if_pos (by omega)]
      have en : (0xC0 + n / 64 - 0xC0) * 64 + (0x80 + n % 64 - 0x80) = n := by omega
      rw [en]
    · by_cases h3 : n < 0x10000
      · have hs : n < 0xD800 ∨ 0xDFFF < n := by
          rcases hv with h | ⟨h, _⟩
          · exact Or.inl h
          · exact Or.inr h
        have e : utf8EncodeCp n =
            [0xE0 + n / 4096, 0x80 + n / 64 % 64, 0x80 + n % 64] := by
          unfold utf8EncodeCp; rw [if_neg h1, if_neg h2, if_pos h3]
        rw [e, List.cons_append, List.cons_append, List.cons_append, List.nil_append]
        rw [utf8DecodeSt, if_neg (by omega), if_neg (by omega), if_neg (by omega),
          if_pos (by omega)]
        rw [utf8DecodeSt, if_pos (by omega), if_neg (by omega)]
        rw [utf8DecodeSt, if_pos (by omega), if_pos rfl, if_pos (by omega)]
        have en : ((0xE0 + n / 4096 - 0xE0) * 64 + (0x80 + n / 64 % 64 - 0x80)) * 64 +
            (0x80 + n % 64 - 0x80) = n := by omega
        rw [en]
      · have e : utf8EncodeCp n =
            [0xF0 + n / 262144, 0x80 + n / 4096 % 64, 0x80 + n / 64 % 64,
              0x80 + n % 64] := by
          unfold utf8EncodeCp; rw [if_neg h1, if_neg h2, if_neg h3]
        rw [e, List.cons_append, List.cons_append, List.cons_append, List.cons_append,
          List.nil_append]
        rw [utf8DecodeSt, if_neg (by omega), if_neg (by omega), if_neg (by omega),
          if_neg (by omega), if_pos (by omega)]
        rw [utf8DecodeSt, if_pos (by omega), if_neg (by omega)]
        rw [utf8DecodeSt, if_pos (by omega), if_neg (by omega)]
        rw [utf8DecodeSt, if_pos (by omega), if_pos rfl, if_pos (by omega)]
        have en : (((0xF0 + n / 262144 - 0xF0) * 64 + (0x80 + n / 4096 % 64 - 0x80)) * 64 +
            (0x80 + n / 64 % 64 - 0x80)) * 64 + (0x80 + n % 64 - 0x80) = n := by omega
        rw [en]

/-- Decoding the UTF-8 bytes of a string yields its code points. -/
theorem utf8Decode_strToUtf8 (s : String) :
    utf8Decode (strToUtf8 s) = some (s.data.map Char.toNat) := by
  suffices h : ∀ l : List Char,
      utf8Decode ((l.map fun c => utf8EncodeCp c.toNat).flatten) =
        some (l.map Char.toNat) from h s.data
  intro l
  induction l with
  | nil => rfl
  | cons c l ih =>
    simp only [List.map_cons, List.flatten_cons]
    rw [utf8Decode_encode_cons c.toNat c.valid, ih, Option.map_some']

/-- Every UTF-8 byte of a string is below 256. -/
theorem strToUtf8_lt_256 (s : String) : ∀ x ∈ strToUtf8 s, x < 256 := by
  intro x hx
  unfold strToUtf8 at hx
  rw [List.mem_flatten] at hx
  obtain ⟨l, hl, hxl⟩ := hx
  rw [List.mem_map] at hl
  obtain ⟨c, _, rfl⟩ := hl
  have hv : c.toNat < 0xd800 ∨ (0xdfff < c.toNat ∧ c.toNat < 0x110000) := c.valid
  exact utf8EncodeCp_lt_256 c.toNat (by omega) x hxl

/-- C4: the transport encoding round-trips every valid Unicode string:
    `decodeURIComponent(escape(atob(x)))` applied to
    `x = btoa(unescape(encodeURIComponent(s)))` yields `s` exactly,
    multi-byte characters included. -/
theorem transport_encoding_roundtrip (s : String) :
    jsDecode (jsEncode s) = some s := by
  unfold jsEncode jsDecode
  have hmk : (String.mk (b64encodeList (strToUtf8 s))).data =
      b64encodeList (strToUtf8 s) := rfl
  rw [hmk, b64_roundtrip (strToUtf8 s) (strToUtf8_lt_256 s)]
  show (match utf8Decode (strToUtf8 s) with
    | none => none
    | some cps => some (String.mk (cps.map Char.ofNat))) = some s
  rw [utf8Decode_strToUtf8]
  show some (String.mk ((s.data.map Char.toNat).map Char.ofNat)) = some s
  rw [List.map_map]
  have e : (Char.ofNat ∘ Char.toNat) = id := by
    funext c
    exact Char.ofNat_toNat c
  rw [e, List.map_id]

/-! ## Revision-tag (sha) handling -/

/-- The truthiness test `if (sha)` agrees with "is present" for any value
    produced by `data.sha || null`: that expression never yields the (falsy)
    empty string. -/
theorem jsTruthy_jsOrNull (x : Option String) :
    jsTruthy (jsOrNull x) = (jsOrNull x).isSome := by
  cases x with
  | none => rfl
  | some s =>
    simp only [jsOrNull]
    by_cases h : s.isEmpty
    · rw [if_pos h]; rfl
    · rw [if_neg h]
      simp [jsTruthy, h]

/-- `getFileSHA` never returns the empty string: its truthiness equals its
    presence. -/
theorem jsTruthy_getFileSHA (c : Config) (store : Store) (path : String) :
    jsTruthy (getFileSHA c store path).1 = ((getFileSHA c store path).1).isSome := by
  unfold getFileSHA getFileSHATry
  simp only []
  cases store (Request.getContents c.owner c.repo path c.branch) with
  | throws => rfl
  | response r =>
    dsimp only
    by_cases h404 : r.status = 404
    · rw [if_pos h404]; rfl
    · rw [if_neg h404]
      by_cases hok : resOk r.status
      · rw [if_neg (by simp [hok])]
        cases r.jsonResult with
        | error e => rfl
        | ok data => simpa using jsTruthy_jsOrNull data.sha
      · rw [if_pos (by simp [hok])]; rfl

/-- `getFileSHA` issues exactly the one read request. -/
theorem getFileSHA_requests (c : Config) (store : Store) (path : String) :
    (getFileSHA c store path).2 = [Request.getContents c.owner c.repo path c.branch] := by
  unfold getFileSHA getFileSHATry
  simp only []
  cases store (Request.getContents c.owner c.repo path c.branch) with
  | throws => rfl
  | response r =>
    dsimp only
    by_cases h404 : r.status = 404
    · rw [if_pos h404]
    · rw [if_neg h404]
      by_cases hok : resOk r.status
      · rw [if_neg (by simp [hok])]
        cases r.jsonResult with
        | error e => rfl
        | ok data => rfl
      · rw [if_pos (by simp [hok])]

/-- C3: when connected, `commitFile` issues exactly one write, whose body
    carries precisely the revision tag returned by the immediately
    preceding `getFileSHA` read for that path: the `sha` field is present
    iff that read returned a tag, and omitted when the read said
    "not found". -/
theorem commitFile_sha_policy (c : Config) (store : Store)
    (path content commitMsg : String) (isBinary : Bool)
    (hc : configTruthy c = true) :
    ∃ body : PutBody,
      (commitFile (some c) store path content commitMsg isBinary).2 =
        (getFileSHA c store path).2 ++ [Request.putContents c.owner c.repo path body] ∧
      body.sha = (getFileSHA c store path).1 := by
  unfold commitFile
  dsimp only
  rw [hc]
  simp only [Bool.not_true, Bool.false_eq_true, if_false]
  have hsha : (if jsTruthy (getFileSHA c store path).1
      then (getFileSHA c store path).1 else none) = (getFileSHA c store path).1 := by
    rw [jsTruthy_getFileSHA]
    cases (getFileSHA c store path).1 with
    | none => rfl
    | some s => rfl
  refine ⟨{ message := commitMsg
            branch := c.branch
            content := if isBinary then content else jsEncode content
            sha := if jsTruthy (getFileSHA c store path).1
              then (getFileSHA c store path).1 else none }, ?_, ?_⟩
  · cases store (Request.putContents c.owner c.repo path
      { message := commitMsg
        branch := c.branch
        content := if isBinary then content else jsEncode content
        sha := if jsTruthy (getFileSHA c store path).1
          then (getFileSHA c store path).1 else none }) <;> rfl
  · exact hsha

/-- C3 (witness): at a concrete connected config against a store whose read
    finds sha `"abc"`, the single write body carries exactly that tag. -/
theorem commitFile_sha_policy_witness :
    ∃ body : PutBody,
      (commitFile (some cfgSample) storeShaAbc "data/league-data.json" "x" "m" true).2 =
        (getFileSHA cfgSample storeShaAbc "data/league-data.json").2 ++
          [Request.putContents "a" "b" "data/league-data.json" body] ∧
      body.sha = (getFileSHA cfgSample storeShaAbc "data/league-data.json").1 :=
  commitFile_sha_policy cfgSample storeShaAbc "data/league-data.json" "x" "m" true rfl

/-- Helper: a not-connected `commitFile` short-circuits to
    `(false, no requests)`. -/
theorem commitFile_of_not_connected (cfg : Option Config) (store : Store)
    (path content commitMsg : String) (isBinary : Bool)
    (h : isConnected cfg = false) :
    commitFile cfg store path content commitMsg isBinary = (Except.ok false, []) := by
  cases cfg with
  | none => rfl
  | some c =>
    have hc : configTruthy c = false := h
    unfold commitFile
    dsimp only
    rw [hc]
    rfl

/-- C10: when not connected, `commitFile` returns `false` at once and issues
    no request at all — neither the read nor the write reaches the store. -/
theorem commitFile_not_connected (cfg : Option Config) (store : Store)
    (path content commitMsg : String) (isBinary : Bool)
    (h : isConnected cfg = false) :
    commitFile cfg store path content commitMsg isBinary = (Except.ok false, []) :=
  commitFile_of_not_connected cfg store path content commitMsg isBinary h

/-- C10 (witness): concrete evaluation with a null config — the result is
    `false` with an empty request trace even against a store that would
    fail every call. -/
theorem commitFile_not_connected_witness :
    commitFile none storeAllThrow "data/league-data.json" "x" "m" false =
      (Except.ok false, []) :=
  commitFile_not_connected none storeAllThrow "data/league-data.json" "x" "m" false rfl

/-! ## Error propagation at the commit layer -/

/-- C1 (counterexample): against a store whose write request fails at the
    transport level (the `PUT` fetch rejects; reads succeed), a connected
    `commitFile` does **not** return `false`: the exception propagates to
    its caller, because `commitFile` has no `try/catch` around the `PUT`. -/
theorem commitFile_write_throw_counterexample :
    (commitFile (some cfgSample) storePutThrow "p" "x" "msg" false).1 =
      Except.error () := rfl

/-- C1 (amended): `getFileSHA` catches every remote-store failure —
    including a thrown transport-level error — and returns `none`, and a
    not-connected `commitFile` returns `false` without any exception; but a
    transport-level error thrown during the write request is **not** caught
    by `commitFile`: when connected, it propagates past `commitFile` to its
    caller (where `syncData`/`uploadMatchImage` catch it). -/
theorem commit_layer_error_policy (c : Config) (store : Store)
    (path content commitMsg : String) (isBinary : Bool) :
    (store (Request.getContents c.owner c.repo path c.branch) = FetchOutcome.throws →
      (getFileSHA c store path).1 = none) ∧
    (∀ cfg : Option Config, isConnected cfg = false →
      (commitFile cfg store path content commitMsg isBinary).1 = Except.ok false) ∧
    (configTruthy c = true → (∀ req, store req = FetchOutcome.throws) →
      (commitFile (some c) store path content commitMsg isBinary).1 =
        Except.error ()) := by
  refine ⟨?_, ?_, ?_⟩
  · intro h
    unfold getFileSHA getFileSHATry
    dsimp only
    rw [h]
  · intro cfg h
    rw [commitFile_of_not_connected cfg store path content commitMsg isBinary h]
  · intro hc hthrow
    unfold commitFile
    dsimp only
    rw [hc]
    simp only [Bool.not_true, Bool.false_eq_true, if_false]
    rw [hthrow]

/-- C1 (witness): concrete evaluation of the amended policy with the
    all-throwing store and a concrete connected config. -/
theorem commit_layer_error_policy_witness :
    (getFileSHA cfgSample storeAllThrow "p").1 = none ∧
    (commitFile none storeAllThrow "p" "x" "m" true).1 = Except.ok false ∧
    (commitFile (some cfgSample) storeAllThrow "p" "x" "m" true).1 =
      Except.error () :=
  ⟨(commit_layer_error_policy cfgSample storeAllThrow "p" "x" "m" true).1 rfl,
   (commit_layer_error_policy cfgSample storeAllThrow "p" "x" "m" true).2.1 none rfl,
   (commit_layer_error_policy cfgSample storeAllThrow "p" "x" "m" true).2.2 rfl
     (fun _ => rfl)⟩

/-! ## testConnection -/

/-- C6 (counterexample): on a 200 response the source answers with the
    message `"Connected!"`, not `"Connected"` as the claim quotes. -/
theorem testConnection_connected_msg_counterexample :
    testConnection (some cfgSample) store200 = { ok := true, msg := "Connected!" } ∧
    ({ ok := true, msg := "Connected!" } : TestResult) ≠
      { ok := true, msg := "Connected" } := by
  constructor
  · rfl
  · decide

/-- C6 (amended): for a connected config, `testConnection` classifies the
    identity read exactly as the source does: 200 → ok/`"Connected!"`,
    401 → not-ok/`"Invalid token"`, 404 → not-ok/`"Repo not found"`, any
    other status → not-ok/`"Error {status}"`, and a thrown network error →
    not-ok/`"Network error"`. It is purely diagnostic: it only reads the
    config and returns a classification, never a modified config or
    storage state. -/
theorem testConnection_classification (c : Config) (store : Store)
    (hc : configTruthy c = true) :
    (store (Request.getRepo c.owner c.repo) = FetchOutcome.throws →
      testConnection (some c) store = { ok := false, msg := "Network error" }) ∧
    (∀ r : Response, store (Request.getRepo c.owner c.repo) = FetchOutcome.response r →
      testConnection (some c) store =
        if r.status = 200 then { ok := true, msg := "Connected!" }
        else if r.status = 401 then { ok := false, msg := "Invalid token" }
        else if r.status = 404 then { ok := false, msg := "Repo not found" }
        else { ok := false, msg := "Error " ++ toString r.status }) := by
  constructor
  · intro h
    unfold testConnection
    dsimp only
    rw [hc]
    simp only [Bool.not_true, Bool.false_eq_true, if_false]
    rw [h]
  · intro r h
    unfold testConnection
    dsimp only
    rw [hc]
    simp only [Bool.not_true, Bool.false_eq_true, if_false]
    rw [h]

/-- C6 (witness): evaluating the classification at a concrete connected
    config: a 200 response yields ok/`"Connected!"` and the all-throwing
    store yields `"Network error"`. -/
theorem testConnection_classification_witness :
    testConnection (some cfgSample) store200 = { ok := true, msg := "Connected!" } ∧
    testConnection (some cfgSample) storeAllThrow =
      { ok := false, msg := "Network error" } :=
  ⟨by
    have h := (testConnection_classification cfgSample store200 rfl).2
      { status := 200, jsonResult := Except.ok {} } rfl
    simpa using h,
   (testConnection_classification cfgSample storeAllThrow rfl).1 rfl⟩

/-! ## loadRemoteData and uploadMatchImage -/

/-- C7: for a connected config, when the store answers the snapshot read
    with 404, `loadRemoteData` returns no data and reports the outcome as a
    *success* ("No remote data yet — starting fresh"), not as an error. -/
theorem loadRemoteData_404 {α : Type} (c : Config) (store : Store)
    (jparse : String → Except Unit α) (hc : configTruthy c = true)
    (r : Response)
    (hstore : store (Request.getContents c.owner c.repo "data/league-data.json" c.branch) =
      FetchOutcome.response r)
    (h404 : r.status = 404) :
    loadRemoteData (some c) store jparse =
      (none, [StatusEvent.showSyncBar "Loading data from GitHub…",
              StatusEvent.hideSyncBar SyncFlag.ok "No remote data yet — starting fresh"]) := by
  unfold loadRemoteData
  dsimp only
  rw [hc]
  simp only [Bool.not_true, Bool.false_eq_true, if_false]
  rw [hstore]
  dsimp only
  rw [if_pos (by simp [resOk, h404])]
  rfl

/-- C7 (witness): concrete evaluation against the all-404 store. -/
theorem loadRemoteData_404_witness :
    loadRemoteData (some cfgSample) store404 (fun _ => (Except.error () : Except Unit Unit)) =
      (none, [StatusEvent.showSyncBar "Loading data from GitHub…",
              StatusEvent.hideSyncBar SyncFlag.ok "No remote data yet — starting fresh"]) :=
  loadRemoteData_404 cfgSample store404 (fun _ => Except.error ()) rfl
    { status := 404, jsonResult := Except.ok {} } rfl rfl

/-- C9: for a connected config, `uploadMatchImage` returns exactly the
    deterministic raw-content URL
    `https://raw.githubusercontent.com/{owner}/{repo}/{branch}/match-images/{filename}`
    when the commit succeeds, and `none` on any failure — a rejected write
    (`Except.ok false`) or a thrown error (`Except.error`, caught by its
    `try/catch`). -/
theorem uploadMatchImage_url (c : Config) (store : Store)
    (base64Data filename : String) (hc : configTruthy c = true) :
    (uploadMatchImage (some c) store base64Data filename).1 =
      match (commitFile (some c) store ("match-images/" ++ filename) base64Data
          ("📸 Match screenshot: " ++ filename) true).1 with
      | Except.ok true =>
        some ("https://raw.githubusercontent.com/" ++ c.owner ++ "/" ++ c.repo ++
          "/" ++ c.branch ++ "/" ++ ("match-images/" ++ filename))
      | Except.ok false => none
      | Except.error _ => none := by
  unfold uploadMatchImage
  dsimp only
  rw [hc]
  simp only [Bool.not_true, Bool.false_eq_true, if_false]
  cases h : (commitFile (some c) store ("match-images/" ++ filename) base64Data
      ("📸 Match screenshot: " ++ filename) true).1 with
  | ok b => cases b <;> rfl
  | error e => rfl

/-- C9 (witness): against a store accepting every request, the returned URL
    is exactly the raw-content URL for the sample config and filename. -/
theorem uploadMatchImage_url_witness :
    (uploadMatchImage (some cfgSample) store200 "QUJD" "shot.png").1 =
      some "https://raw.githubusercontent.com/a/b/main/match-images/shot.png" :=
  (uploadMatchImage_url cfgSample store200 "QUJD" "shot.png" rfl).trans rfl
